import Mathlib

/-!
Shallow embedding of `backend/lib/generator.ts` from the repository
`ai-product-from-scratch`: the truncation detector (`isTruncated`), the
recursive truncation check (`validateNoTruncation`), the constrained
generator (`generateWithSchema`) and the retry controller
(`generateWithRetry`).

Modelling conventions:
- JavaScript strings are modelled as Lean `String`; `String.prototype.trim`
  is modelled as `trimChars` over the character list, removing the ASCII
  whitespace characters space, tab, carriage return and newline from both
  ends (the inputs of interest are ASCII).
- Regular-expression tests of the end-anchored patterns in `isTruncated`
  are modelled as explicit suffix inspections of the character list.
- JSON values parsed from model output are modelled by the inductive
  type `Json` (strings, numbers, booleans, null, arrays, objects).
- The effectful pieces of `generateWithSchema` (the LLM session call,
  `grammar.parse`, the Ajv validator, the lenient fallback `parseJSON`
  from `validation.ts`) are oracles passed in as function parameters:
  a call that throws is an `Except.error` carrying the error message.
  Logging calls have no effect on control flow and are omitted.
-/

/-- The JavaScript whitespace characters relevant to the ASCII inputs the
generator handles: space, tab, carriage return, newline. -/
def jsWs (c : Char) : Bool :=
  c = ' ' || c = '\t' || c = '\r' || c = '\n'

/-- Model of `String.prototype.trim`: drop leading and trailing whitespace
from a character list. -/
def trimChars (l : List Char) : List Char :=
  ((l.dropWhile jsWs).reverse.dropWhile jsWs).reverse

/-- The character class of the regex fragment matching an opening brace,
an opening bracket or a closing bracket at the end of a word. -/
def isBracketEnd (c : Char) : Bool :=
  c = '\x7b' || c = '[' || c = ']'

/-- Test of an end-anchored two-character regex: the last character of the
list satisfies `isBracketEnd` and the one before it satisfies `p`.  Models
the tests of the source patterns matching a letter followed by an opening
brace, an opening bracket or a closing bracket at end of string. -/
def endsClassBracket (p : Char → Bool) (l : List Char) : Bool :=
  match l.reverse with
  | c2 :: c1 :: _ => isBracketEnd c2 && p c1
  | _ => false

/-- Test of the source regex matching an opening brace or bracket followed
only by whitespace up to the end of the string. -/
def endsOpenWs (l : List Char) : Bool :=
  match l.reverse.dropWhile jsWs with
  | c :: _ => c = '\x7b' || c = '['
  | [] => false

/-- Test of the source regex matching a letter, then an opening brace, an
opening bracket or a closing bracket, then only whitespace to the end. -/
def endsAlphaBracketWs (l : List Char) : Bool :=
  match l.reverse.dropWhile jsWs with
  | c2 :: c1 :: _ => isBracketEnd c2 && c1.isAlpha
  | _ => false

/-- Whether the list ends with the character `c`; models
`trimmed.endsWith(...)` for a single-character argument. -/
def endsWithChar (c : Char) (l : List Char) : Bool :=
  match l.reverse with
  | x :: _ => x = c
  | [] => false

/-- Embedding of `isTruncated` from `backend/lib/generator.ts` lines 45-84:
detect whether a text value looks truncated.  Empty or whitespace-only text
is never truncated; otherwise the trimmed text is tested against the four
pattern checks and the unbalanced-brace check of the source, in source
order. -/
def isTruncated (text : String) : Bool :=
  let l0 := text.toList
  if l0 = [] || trimChars l0 = [] then false
  else
    let l := trimChars l0
    if endsClassBracket Char.isAlpha l then true
    else if endsClassBracket (fun c => 'a' ≤ c && c ≤ 'z') l then true
    else
      let openBraces := l.count '\x7b'
      let closeBraces := l.count '\x7d'
      let openBrackets := l.count '['
      let closeBrackets := l.count ']'
      if (decide (openBraces > closeBraces) || decide (openBrackets > closeBrackets)) &&
          (endsWithChar '\x7b' l || endsWithChar '[' l || endsOpenWs l) then true
      else if endsAlphaBracketWs l then true
      else false

/-- JSON-like values as parsed from model output: the value space over
which `validateNoTruncation` recurses. -/
inductive Json where
  | str : String → Json
  | num : Int → Json
  | bool : Bool → Json
  | null : Json
  | arr : List Json → Json
  | obj : List (String × Json) → Json
deriving Repr

mutual

/-- Embedding of `validateNoTruncation` from `backend/lib/generator.ts`
lines 92-106: recursively check every string leaf of a parsed structure
for truncation.  The source throws on the first truncated string found;
the embedding returns `some message` for that throw and `none` for normal
completion. -/
def validateNoTruncation : Json → String → Option String
  | Json.str s, path =>
      if isTruncated s then
        some ("Truncated text detected at " ++ path ++ ": \"" ++ s.take 50 ++ "...\"")
      else none
  | Json.arr items, path => vntItems items path 0
  | Json.obj fields, path => vntFields fields path
  | _, _ => none

/-- The `data.forEach` loop of `validateNoTruncation` over an array,
carrying the element index used in the path. -/
def vntItems : List Json → String → Nat → Option String
  | [], _, _ => none
  | item :: rest, path, index =>
      match validateNoTruncation item (path ++ "[" ++ toString index ++ "]") with
      | some e => some e
      | none => vntItems rest path (index + 1)

/-- The `Object.entries(data).forEach` loop of `validateNoTruncation` over
the fields of an object. -/
def vntFields : List (String × Json) → String → Option String
  | [], _ => none
  | (key, value) :: rest, path =>
      match validateNoTruncation value (path ++ "." ++ key) with
      | some e => some e
      | none => vntFields rest path

end

mutual

/-- Specification-side predicate: the structure has at least one string
leaf that `isTruncated` flags. -/
def hasTruncatedLeaf : Json → Bool
  | Json.str s => isTruncated s
  | Json.arr items => anyTruncatedItem items
  | Json.obj fields => anyTruncatedField fields
  | _ => false

/-- Some element of the list has a truncated string leaf. -/
def anyTruncatedItem : List Json → Bool
  | [] => false
  | item :: rest => hasTruncatedLeaf item || anyTruncatedItem rest

/-- Some field value of the list has a truncated string leaf. -/
def anyTruncatedField : List (String × Json) → Bool
  | [] => false
  | (_, value) :: rest => hasTruncatedLeaf value || anyTruncatedField rest

end

example : isTruncated "The person is express\x7b" = true := by decide
example : isTruncated "making[" = true := by decide
example : isTruncated "Yes." = false := by decide
example : isTruncated "" = false := by decide
example : isTruncated "   " = false := by decide
example : isTruncated "5]" = false := by decide
example : isTruncated "he said \x7bwow." = false := by decide
example : isTruncated "a \x7b" = true := by decide
set_option maxRecDepth 4096 in
example : validateNoTruncation (Json.arr [Json.str "ok.", Json.str "bad\x7b"]) "root" =
    some "Truncated text detected at root[1]: \"bad\x7b...\"" := by decide

/-- Result of one `generateWithSchema` call: the value returned or the
error thrown, together with the number of lenient fallback parses the call
attempted (the `parseJSON` invocations in the catch block). -/
structure GenOutcome where
  result : Except String Json
  fallbackParses : Nat
deriving Repr

/-- The try block of `generateWithSchema` (`backend/lib/generator.ts`
lines 201-247): obtain the model response, parse it with the grammar,
validate with Ajv, then run the recursive truncation check.  `sessionRes`
is the oracle for `session.prompt` (error if it throws), `grammarParse`
for `grammar.parse`, `validator` for the Ajv validate function, and
`fmtErrors` for `formatValidationErrors(validator.errors)`. -/
def genTryBlock (sessionRes : Except String String)
    (grammarParse : String → Except String Json)
    (validator : Json → Bool)
    (fmtErrors : Json → String) : Except String Json :=
  match sessionRes with
  | Except.error e => Except.error e
  | Except.ok response =>
    match grammarParse response with
    | Except.error e => Except.error e
    | Except.ok parsed =>
      if validator parsed = false then
        Except.error ("Validation failed: " ++ fmtErrors parsed)
      else
        match validateNoTruncation parsed "root" with
        | some msg => Except.error ("Response appears truncated: " ++ msg)
        | none => Except.ok parsed

/-- Embedding of `generateWithSchema` from `backend/lib/generator.ts`
lines 170-278.  The catch block runs for any error thrown in the try
block; when a raw response exists (JavaScript truthiness: the response is
defined and non-empty), it attempts one lenient `parseJSON` fallback
(`parseJSON` is the oracle for the tolerant parser of `validation.ts`)
and returns the fallback value if the validator accepts it, otherwise
rethrows the original error. -/
def generateWithSchema (sessionRes : Except String String)
    (grammarParse : String → Except String Json)
    (validator : Json → Bool)
    (fmtErrors : Json → String)
    (parseJSON : String → Except String Json) : GenOutcome :=
  match genTryBlock sessionRes grammarParse validator fmtErrors with
  | Except.ok v => ⟨Except.ok v, 0⟩
  | Except.error err =>
    match sessionRes with
    | Except.error _ => ⟨Except.error err, 0⟩
    | Except.ok response =>
      if response = "" then ⟨Except.error err, 0⟩
      else
        match parseJSON response with
        | Except.ok manualParsed =>
            if validator manualParsed then ⟨Except.ok manualParsed, 1⟩
            else ⟨Except.error err, 1⟩
        | Except.error _ => ⟨Except.error err, 1⟩

/-- The fixed retry bound of `generateWithRetry`
(`backend/lib/generator.ts` line 330): `const maxAttempts = 2`. -/
def maxAttempts : Nat := 2

/-- Model of the JavaScript expression
the default applied to the last error message on line 339: a missing
error, or an error whose message is the empty string (falsy), yields the
default text "Unknown error". -/
def errOrUnknown : Option String → String
  | none => "Unknown error"
  | some m => if m = "" then "Unknown error" else m

/-- The prompt used by attempt number `attempt` in `generateWithRetry`
(`backend/lib/generator.ts` lines 336-339): the base prompt on attempt 1,
otherwise the retry prompt built from the base prompt and the error
message of the previous attempt. -/
def promptFor (promptBuilder : String → Option String → String)
    (buildRetryPrompt : String → String → String)
    (message : String) (context : Option String)
    (attempt : Nat) (lastError : Option String) : String :=
  if attempt = 1 then promptBuilder message context
  else buildRetryPrompt (promptBuilder message context) (errOrUnknown lastError)

/-- Instrumented result of `generateWithRetry`: the value returned or
error thrown, how many generation attempts were made (calls into
`generateWithSchema`), and the prompts those attempts used, in order. -/
structure RetryOutcome (α : Type) where
  result : Except String α
  attemptsMade : Nat
  promptsUsed : List String
deriving Repr

/-- The `for` loop of `generateWithRetry` (`backend/lib/generator.ts`
lines 334-355), one iteration per constructor step.  `gen attempt prompt`
is the oracle for the `generateWithSchema` call of that attempt (the model
is nondeterministic, so outcomes may differ between attempts).  `fuel`
counts the remaining loop iterations (`maxAttempts - attempt + 1` at
entry); the fuel-exhausted case models the unreachable `throw lastError`
after the loop. -/
def retryLoop (gen : Nat → String → Except String α)
    (promptBuilder : String → Option String → String)
    (buildRetryPrompt : String → String → String)
    (message : String) (context : Option String) :
    Nat → Nat → Option String → RetryOutcome α
  | 0, _, lastError => ⟨Except.error (errOrUnknown lastError), 0, []⟩
  | fuel + 1, attempt, lastError =>
    let prompt := promptFor promptBuilder buildRetryPrompt message context attempt lastError
    match gen attempt prompt with
    | Except.ok v => ⟨Except.ok v, 1, [prompt]⟩
    | Except.error e =>
      if attempt = maxAttempts then
        ⟨Except.error ("Failed after " ++ toString maxAttempts ++ " attempts: " ++ e),
          1, [prompt]⟩
      else
        let rest :=
          retryLoop gen promptBuilder buildRetryPrompt message context fuel (attempt + 1) (some e)
        ⟨rest.result, rest.attemptsMade + 1, prompt :: rest.promptsUsed⟩

/-- Embedding of `generateWithRetry` from `backend/lib/generator.ts`
lines 319-359: run the retry loop from attempt 1 with no previous error
and `maxAttempts` iterations of fuel. -/
def generateWithRetry (gen : Nat → String → Except String α)
    (promptBuilder : String → Option String → String)
    (buildRetryPrompt : String → String → String)
    (message : String) (context : Option String) : RetryOutcome α :=
  retryLoop gen promptBuilder buildRetryPrompt message context maxAttempts 1 none

example :
    (generateWithRetry (α := Nat) (fun _ _ => Except.error "E")
      (fun m _ => m) (fun p e => p ++ "|" ++ e) "msg" none).result =
      Except.error "Failed after 2 attempts: E" := by rfl

example :
    (generateWithRetry (fun a _ => if a = 1 then Except.error "E1" else Except.ok 7)
      (fun m _ => m) (fun p e => p ++ "|" ++ e) "msg" none).promptsUsed =
      ["msg", "msg|E1"] := by rfl

lemma trimChars_nil : trimChars [] = [] := rfl

lemma count_dropWhile_of_not (p : Char → Bool) (m : List Char) (c : Char)
    (hc : p c = false) : (m.dropWhile p).count c = m.count c := by
  conv_rhs => rw [← List.takeWhile_append_dropWhile (p := p) (l := m)]
  rw [List.count_append]
  have hz : (m.takeWhile p).count c = 0 := by
    rw [List.count_eq_zero]
    intro hmem
    have hp := List.mem_takeWhile_imp hmem
    rw [hc] at hp
    exact Bool.noConfusion hp
  omega

/-- Trimming whitespace does not change the number of occurrences of a
non-whitespace character. -/
lemma count_trimChars (l : List Char) (c : Char) (hc : jsWs c = false) :
    (trimChars l).count c = l.count c := by
  unfold trimChars
  rw [List.count_reverse, count_dropWhile_of_not _ _ _ hc, List.count_reverse,
    count_dropWhile_of_not _ _ _ hc]

lemma endsClassBracket_false_of_head (p : Char → Bool) (l : List Char) (c : Char)
    (rest : List Char) (hrev : l.reverse = c :: rest) (hc : isBracketEnd c = false) :
    endsClassBracket p l = false := by
  unfold endsClassBracket
  rw [hrev]
  cases rest <;> simp [hc]

lemma endsWithChar_false_of_head (c0 : Char) (l : List Char) (c : Char)
    (rest : List Char) (hrev : l.reverse = c :: rest) (hne : c ≠ c0) :
    endsWithChar c0 l = false := by
  unfold endsWithChar
  rw [hrev]
  simp [hne]

lemma endsOpenWs_false_of_head (l : List Char) (c : Char) (rest : List Char)
    (hrev : l.reverse = c :: rest) (hws : jsWs c = false)
    (hc : (c = '\x7b' || c = '[') = false) : endsOpenWs l = false := by
  unfold endsOpenWs
  rw [hrev, List.dropWhile_cons_of_neg (by simp [hws])]
  simpa using hc

lemma endsAlphaBracketWs_false_of_head (l : List Char) (c : Char) (rest : List Char)
    (hrev : l.reverse = c :: rest) (hws : jsWs c = false)
    (hc : isBracketEnd c = false) : endsAlphaBracketWs l = false := by
  unfold endsAlphaBracketWs
  rw [hrev, List.dropWhile_cons_of_neg (by simp [hws])]
  cases rest <;> simp [hc]

/-- C3: if the trimmed text ends with an alphabetic character immediately
followed by an opening brace, an opening bracket or a closing bracket, the
truncation detector returns true; and if the trimmed text ends with
sentence punctuation (a period, exclamation mark or question mark, the
formalisation of a complete, properly punctuated sentence), it returns
false. -/
theorem isTruncated_word_bracket_true_punctuated_false (s : String) :
    (endsClassBracket Char.isAlpha (trimChars s.toList) = true → isTruncated s = true) ∧
    (∀ c, endsWithChar c (trimChars s.toList) = true → (c = '.' ∨ c = '!' ∨ c = '?') →
      isTruncated s = false) := by
  constructor
  · intro h
    have hl : trimChars s.toList ≠ [] := by
      intro hnil
      rw [hnil] at h
      exact Bool.noConfusion h
    have hl0 : s.toList ≠ [] := by
      intro hnil
      exact hl (by rw [hnil, trimChars_nil])
    unfold isTruncated
    simp only [String.toList] at *
    simp [hl0, hl, h]
  · intro c hend hc
    unfold isTruncated
    simp only [String.toList] at *
    by_cases h0 : s.data = []
    · simp [h0]
    by_cases h1 : trimChars s.data = []
    · simp [h1]
    obtain ⟨c0, rest, hrev⟩ : ∃ c0 rest, (trimChars s.data).reverse = c0 :: rest := by
      cases hrevcase : (trimChars s.data).reverse with
      | nil => exact absurd (List.reverse_eq_nil_iff.mp hrevcase) h1
      | cons a t => exact ⟨a, t, rfl⟩
    have hc0 : c0 = c := by
      unfold endsWithChar at hend
      rw [hrev] at hend
      exact of_decide_eq_true hend
    subst hc0
    have hbr : isBracketEnd c0 = false := by
      rcases hc with h | h | h <;> subst h <;> decide
    have hws : jsWs c0 = false := by
      rcases hc with h | h | h <;> subst h <;> decide
    have hopen : (c0 = '\x7b' || c0 = '[') = false := by
      rcases hc with h | h | h <;> subst h <;> decide
    have e1 := endsClassBracket_false_of_head Char.isAlpha _ _ _ hrev hbr
    have e2 := endsClassBracket_false_of_head (fun c => 'a' ≤ c && c ≤ 'z') _ _ _ hrev hbr
    have e3 := endsWithChar_false_of_head '\x7b' _ _ _ hrev (by
      rcases hc with h | h | h <;> subst h <;> decide)
    have e4 := endsWithChar_false_of_head '[' _ _ _ hrev (by
      rcases hc with h | h | h <;> subst h <;> decide)
    have e5 := endsOpenWs_false_of_head _ _ _ hrev hws hopen
    have e6 := endsAlphaBracketWs_false_of_head _ _ _ hrev hws hbr
    simp [h0, h1, e1, e2, e3, e4, e5, e6]

/-- Witness for the C3 theorem at concrete inputs: the truncated fragment
and a complete sentence. -/
theorem isTruncated_word_bracket_true_punctuated_false_witness :
    isTruncated "The person is express\x7b" = true ∧ isTruncated "All done." = false :=
  ⟨(isTruncated_word_bracket_true_punctuated_false "The person is express\x7b").1 (by decide),
   (isTruncated_word_bracket_true_punctuated_false "All done.").2 '.' (by decide) (Or.inl rfl)⟩

/-- C7: if the text has more opening braces than closing braces, or more
opening brackets than closing brackets, and its trimmed form ends with an
opening brace or bracket possibly followed by whitespace, the truncation
detector returns true. -/
theorem isTruncated_unbalanced_open_end (s : String)
    (hcount : s.toList.count '\x7b' > s.toList.count '\x7d' ∨
      s.toList.count '[' > s.toList.count ']')
    (hend : endsOpenWs (trimChars s.toList) = true) :
    isTruncated s = true := by
  have hl : trimChars s.toList ≠ [] := by
    intro hnil
    rw [hnil] at hend
    exact Bool.noConfusion hend
  have hl0 : s.toList ≠ [] := by
    intro hnil
    exact hl (by rw [hnil, trimChars_nil])
  have hcount' : (trimChars s.toList).count '\x7b' > (trimChars s.toList).count '\x7d' ∨
      (trimChars s.toList).count '[' > (trimChars s.toList).count ']' := by
    rw [count_trimChars _ _ (by decide), count_trimChars _ _ (by decide),
      count_trimChars _ _ (by decide), count_trimChars _ _ (by decide)]
    exact hcount
  unfold isTruncated
  simp only [String.toList] at *
  by_cases p1 : endsClassBracket Char.isAlpha (trimChars s.data) = true
  · simp [hl0, hl, p1]
  by_cases p2 : endsClassBracket (fun c => 'a' ≤ c && c ≤ 'z') (trimChars s.data) = true
  · simp [hl0, hl, p2]
  simp only [Bool.not_eq_true] at p1 p2
  simp [hl0, hl, p1, p2, hend]
  omega

/-- Witness for the C7 theorem: text with one unmatched opening brace
whose trimmed form ends with that brace. -/
theorem isTruncated_unbalanced_open_end_witness : isTruncated "ab \x7b " = true :=
  isTruncated_unbalanced_open_end "ab \x7b " (Or.inl (by decide)) (by decide)

/-- C10: the truncation detector returns false on every empty or
whitespace-only string, and the recursive truncation check accepts a
string leaf holding such a value. -/
theorem isTruncated_whitespace_only_false (s : String)
    (h : trimChars s.toList = []) :
    isTruncated s = false ∧ validateNoTruncation (Json.str s) "root" = none := by
  have hfalse : isTruncated s = false := by
    unfold isTruncated
    simp only [String.toList] at h
    simp [h]
  refine ⟨hfalse, ?_⟩
  unfold validateNoTruncation
  simp [hfalse]

/-- Witness for the C10 theorem at a whitespace-only input. -/
theorem isTruncated_whitespace_only_false_witness :
    isTruncated "  " = false ∧ validateNoTruncation (Json.str "  ") "root" = none :=
  isTruncated_whitespace_only_false "  " (by decide)

mutual

/-- C6: the recursive truncation check flags a parsed structure exactly
when some string-valued leaf of it, reached through arrays and nested
objects, is detected as truncated: the check returns an offending-path
message if and only if `hasTruncatedLeaf` holds. -/
theorem validateNoTruncation_isSome_iff_hasTruncatedLeaf :
    ∀ (j : Json) (path : String),
      (validateNoTruncation j path).isSome = hasTruncatedLeaf j
  | Json.str s, path => by
      unfold validateNoTruncation hasTruncatedLeaf
      split <;> simp_all
  | Json.num _, _ => by simp [validateNoTruncation, hasTruncatedLeaf]
  | Json.bool _, _ => by simp [validateNoTruncation, hasTruncatedLeaf]
  | Json.null, _ => by simp [validateNoTruncation, hasTruncatedLeaf]
  | Json.arr items, path => by
      unfold validateNoTruncation hasTruncatedLeaf
      exact vntItems_isSome_iff items path 0
  | Json.obj fields, path => by
      unfold validateNoTruncation hasTruncatedLeaf
      exact vntFields_isSome_iff fields path

/-- Array case of the C6 induction: the element loop flags exactly when
some element has a truncated leaf. -/
theorem vntItems_isSome_iff :
    ∀ (items : List Json) (path : String) (index : Nat),
      (vntItems items path index).isSome = anyTruncatedItem items
  | [], _, _ => rfl
  | item :: rest, path, index => by
      unfold vntItems anyTruncatedItem
      have h := validateNoTruncation_isSome_iff_hasTruncatedLeaf item
        (path ++ "[" ++ toString index ++ "]")
      cases hv : validateNoTruncation item (path ++ "[" ++ toString index ++ "]") with
      | some e =>
          rw [hv] at h
          simp at h
          simp [← h]
      | none =>
          rw [hv] at h
          simp at h
          simp [← h, vntItems_isSome_iff rest path (index + 1)]

/-- Object case of the C6 induction: the field loop flags exactly when
some field value has a truncated leaf. -/
theorem vntFields_isSome_iff :
    ∀ (fields : List (String × Json)) (path : String),
      (vntFields fields path).isSome = anyTruncatedField fields
  | [], _ => rfl
  | (key, value) :: rest, path => by
      unfold vntFields anyTruncatedField
      have h := validateNoTruncation_isSome_iff_hasTruncatedLeaf value (path ++ "." ++ key)
      cases hv : validateNoTruncation value (path ++ "." ++ key) with
      | some e =>
          rw [hv] at h
          simp at h
          simp [← h]
      | none =>
          rw [hv] at h
          simp at h
          simp [← h, vntFields_isSome_iff rest path]

end

/-- Inversion for the try block: a value it returns passed the validator
and the recursive truncation check. -/
lemma genTryBlock_ok_inv (sessionRes : Except String String)
    (grammarParse : String → Except String Json)
    (validator : Json → Bool) (fmtErrors : Json → String) (v : Json)
    (h : genTryBlock sessionRes grammarParse validator fmtErrors = Except.ok v) :
    validator v = true ∧ validateNoTruncation v "root" = none := by
  unfold genTryBlock at h
  cases sessionRes with
  | error e => simp at h
  | ok response =>
    simp only [] at h
    cases hg : grammarParse response with
    | error e => rw [hg] at h; simp at h
    | ok parsed =>
      rw [hg] at h
      simp only [] at h
      by_cases hv : validator parsed = false
      · rw [if_pos hv] at h; simp at h
      · rw [if_neg hv] at h
        cases ht : validateNoTruncation parsed "root" with
        | some msg => rw [ht] at h; simp at h
        | none =>
            rw [ht] at h
            simp only [Except.ok.injEq] at h
            subst h
            exact ⟨by simpa using hv, ht⟩

/-- C9: every value `generateWithSchema` returns rather than throws
satisfies the Ajv validator, on the grammar-parse path and on the lenient
fallback-parse path alike. -/
theorem generateWithSchema_ok_implies_validator
    (sessionRes : Except String String)
    (grammarParse : String → Except String Json)
    (validator : Json → Bool) (fmtErrors : Json → String)
    (parseJSON : String → Except String Json) (v : Json)
    (h : (generateWithSchema sessionRes grammarParse validator fmtErrors parseJSON).result =
      Except.ok v) :
    validator v = true := by
  unfold generateWithSchema at h
  cases htry : genTryBlock sessionRes grammarParse validator fmtErrors with
  | ok w =>
      rw [htry] at h
      simp only [] at h
      simp only [Except.ok.injEq] at h
      subst h
      exact (genTryBlock_ok_inv _ _ _ _ _ htry).1
  | error err =>
      rw [htry] at h
      cases sessionRes with
      | error e => simp at h
      | ok response =>
        simp only [] at h
        by_cases hr : response = ""
        · rw [if_pos hr] at h; simp at h
        · rw [if_neg hr] at h
          cases hp : parseJSON response with
          | ok m =>
              rw [hp] at h
              simp only [] at h
              by_cases hm : validator m = true
              · rw [if_pos hm] at h
                simp only [] at h
                simp only [Except.ok.injEq] at h
                subst h
                exact hm
              · rw [if_neg hm] at h; simp at h
          | error pe => rw [hp] at h; simp at h

/-- Witness for the C9 theorem: a successful grammar-path call with an
always-accepting validator returns the parsed value, which that validator
accepts. -/
theorem generateWithSchema_ok_implies_validator_witness :
    (generateWithSchema (Except.ok "RAW") (fun _ => Except.ok (Json.str "fine."))
        (fun j => match j with | Json.str _ => true | _ => false) (fun _ => "")
        (fun _ => Except.error "no fallback")).result = Except.ok (Json.str "fine.") ∧
    (fun j => match j with | Json.str _ => true | _ => false) (Json.str "fine.") = true :=
  ⟨rfl, generateWithSchema_ok_implies_validator (Except.ok "RAW")
    (fun _ => Except.ok (Json.str "fine."))
    (fun j => match j with | Json.str _ => true | _ => false) (fun _ => "")
    (fun _ => Except.error "no fallback") (Json.str "fine.") (by rfl)⟩

/-- C5: when grammar-level parsing fails and a non-empty raw response
exists, exactly one lenient fallback parse runs; its value is returned
only if the validator accepts it, and otherwise (validator rejects, or
the fallback parse itself fails) the original grammar-parse error
propagates. -/
theorem generateWithSchema_fallback_on_grammar_failure
    (grammarParse parseJSON : String → Except String Json)
    (validator : Json → Bool) (fmtErrors : Json → String)
    (response gerr : String)
    (hresp : response ≠ "")
    (hg : grammarParse response = Except.error gerr) :
    (generateWithSchema (Except.ok response) grammarParse validator fmtErrors
        parseJSON).fallbackParses = 1 ∧
    (∀ m, parseJSON response = Except.ok m → validator m = true →
      (generateWithSchema (Except.ok response) grammarParse validator fmtErrors
          parseJSON).result = Except.ok m) ∧
    (∀ m, parseJSON response = Except.ok m → validator m = false →
      (generateWithSchema (Except.ok response) grammarParse validator fmtErrors
          parseJSON).result = Except.error gerr) ∧
    (∀ pe, parseJSON response = Except.error pe →
      (generateWithSchema (Except.ok response) grammarParse validator fmtErrors
          parseJSON).result = Except.error gerr) := by
  have htry : genTryBlock (Except.ok response) grammarParse validator fmtErrors =
      Except.error gerr := by
    unfold genTryBlock
    simp only []
    rw [hg]
  refine ⟨?_, ?_, ?_, ?_⟩
  · unfold generateWithSchema
    rw [htry]
    simp only [if_neg hresp]
    cases hp : parseJSON response with
    | ok m => by_cases hm : validator m = true <;> simp [hm]
    | error pe => simp
  · intro m hp hm
    unfold generateWithSchema
    rw [htry]
    simp only [if_neg hresp]
    rw [hp]
    simp [hm]
  · intro m hp hm
    unfold generateWithSchema
    rw [htry]
    simp only [if_neg hresp]
    rw [hp]
    simp [hm]
  · intro pe hp
    unfold generateWithSchema
    rw [htry]
    simp only [if_neg hresp]
    rw [hp]

/-- Witness for the C5 theorem: the grammar parser fails, the fallback
parse yields a value the validator accepts, and that value is returned
after exactly one fallback parse. -/
theorem generateWithSchema_fallback_on_grammar_failure_witness :
    (generateWithSchema (Except.ok "RAW") (fun _ => Except.error "grammar failed")
        (fun _ => true) (fun _ => "") (fun _ => Except.ok (Json.str "ok."))).fallbackParses = 1 ∧
    (generateWithSchema (Except.ok "RAW") (fun _ => Except.error "grammar failed")
        (fun _ => true) (fun _ => "") (fun _ => Except.ok (Json.str "ok."))).result =
      Except.ok (Json.str "ok.") := by
  have h := generateWithSchema_fallback_on_grammar_failure
    (fun _ => Except.error "grammar failed") (fun _ => Except.ok (Json.str "ok."))
    (fun _ => true) (fun _ => "") "RAW" "grammar failed" (by decide) rfl
  exact ⟨h.1, h.2.1 (Json.str "ok.") rfl rfl⟩

/-- The truncated-but-schema-valid value of the C1 failing scenario: a
record whose single field ends mid-word with an opening brace. -/
def truncObj : Json := Json.obj [("primary", Json.str "The person is express\x7b")]

/-- C1 (code bug): a run in which the grammar path parses a schema-valid
but truncated value.  The truncation check throws as intended, but the
fallback parse of the catch block re-parses the same raw output, the validator
accepts it, and `generateWithSchema` returns the truncated value as a
Valid outcome — no further truncation check runs on the fallback path, so
the returned structure has a string leaf the Truncation Detector flags. -/
theorem generateWithSchema_returns_truncated_value :
    (generateWithSchema (Except.ok "RAW") (fun _ => Except.ok truncObj)
        (fun _ => true) (fun _ => "") (fun _ => Except.ok truncObj)).result =
      Except.ok truncObj
    ∧ hasTruncatedLeaf truncObj = true := by
  constructor
  · rfl
  · rfl

/-- Unrolling of the two-iteration retry loop: attempt 1 with the base
prompt; on failure attempt 2 with the augmented prompt; on a second
failure the final error built on line 352 of the source. -/
lemma generateWithRetry_unroll {α : Type} (gen : Nat → String → Except String α)
    (pb : String → Option String → String) (brp : String → String → String)
    (msg : String) (ctx : Option String) :
    generateWithRetry gen pb brp msg ctx =
      match gen 1 (promptFor pb brp msg ctx 1 none) with
      | Except.ok v => ⟨Except.ok v, 1, [promptFor pb brp msg ctx 1 none]⟩
      | Except.error e1 =>
        match gen 2 (promptFor pb brp msg ctx 2 (some e1)) with
        | Except.ok v => ⟨Except.ok v, 2,
            [promptFor pb brp msg ctx 1 none, promptFor pb brp msg ctx 2 (some e1)]⟩
        | Except.error e2 =>
            ⟨Except.error ("Failed after " ++ toString maxAttempts ++ " attempts: " ++ e2), 2,
              [promptFor pb brp msg ctx 1 none, promptFor pb brp msg ctx 2 (some e1)]⟩ := by
  show retryLoop gen pb brp msg ctx (1+1) 1 none = _
  rw [retryLoop]
  cases h1 : gen 1 (promptFor pb brp msg ctx 1 none) with
  | ok v => rfl
  | error e1 =>
    simp only []
    rw [if_neg (by decide : ¬(1 = maxAttempts))]
    show (⟨(retryLoop gen pb brp msg ctx (0+1) 2 (some e1)).result, _, _⟩ : RetryOutcome α) = _
    rw [retryLoop]
    cases h2 : gen 2 (promptFor pb brp msg ctx 2 (some e1)) with
    | ok v => rfl
    | error e2 =>
      simp only []
      rw [if_pos (by decide : (2 = maxAttempts))]

/-- C2: the retry controller makes at most two generation attempts, and
after a second failure it makes no further attempt and terminates with an
error. -/
theorem generateWithRetry_at_most_two_attempts {α : Type}
    (gen : Nat → String → Except String α)
    (pb : String → Option String → String) (brp : String → String → String)
    (msg : String) (ctx : Option String) :
    (generateWithRetry gen pb brp msg ctx).attemptsMade ≤ 2 ∧
    (∀ e1 e2, gen 1 (promptFor pb brp msg ctx 1 none) = Except.error e1 →
      gen 2 (promptFor pb brp msg ctx 2 (some e1)) = Except.error e2 →
      (generateWithRetry gen pb brp msg ctx).attemptsMade = 2 ∧
      ∃ msgF, (generateWithRetry gen pb brp msg ctx).result = Except.error msgF) := by
  rw [generateWithRetry_unroll]
  constructor
  · cases h1 : gen 1 (promptFor pb brp msg ctx 1 none) with
    | ok v => simp
    | error e1 =>
      cases h2 : gen 2 (promptFor pb brp msg ctx 2 (some e1)) with
      | ok v => simp [h2]
      | error e2 => simp [h2]
  · intro e1 e2 h1 h2
    rw [h1]
    simp only []
    rw [h2]
    exact ⟨rfl, _, rfl⟩

/-- Witness for the C2 theorem: a generator that fails both attempts
makes exactly two attempts and ends in an error. -/
theorem generateWithRetry_at_most_two_attempts_witness :
    (generateWithRetry (α := Nat) (fun _ _ => Except.error "E")
        (fun m _ => m) (fun p e => p ++ "|" ++ e) "msg" none).attemptsMade = 2 ∧
    ∃ msgF, (generateWithRetry (α := Nat) (fun _ _ => Except.error "E")
        (fun m _ => m) (fun p e => p ++ "|" ++ e) "msg" none).result = Except.error msgF :=
  (generateWithRetry_at_most_two_attempts (fun _ _ => Except.error "E")
    (fun m _ => m) (fun p e => p ++ "|" ++ e) "msg" none).2 "E" "E" rfl rfl

/-- Whether the first character list starts the second. -/
def startsWithSeq : List Char → List Char → Bool
  | [], _ => true
  | _ :: _, [] => false
  | a :: as, b :: bs => a = b && startsWithSeq as bs

/-- Whether the first character list occurs contiguously inside the
second; formalises "the message carries this reason text". -/
def occursIn (needle : List Char) : List Char → Bool
  | [] => startsWithSeq needle []
  | c :: rest => startsWithSeq needle (c :: rest) || occursIn needle rest

set_option maxRecDepth 8192 in
/-- C4 counterexample: with attempt 1 failing for reason REASON_ONE and
attempt 2 for reason REASON_TWO, the final error thrown by the retry
controller is exactly "Failed after 2 attempts: REASON_TWO": it carries
the reason of attempt 2 but not the reason of attempt 1, refuting the
claim that it carries the reasons of both attempts. -/
theorem generateWithRetry_final_error_drops_first_reason :
    (generateWithRetry (α := Nat)
        (fun a _ => Except.error (if a = 1 then "REASON_ONE" else "REASON_TWO"))
        (fun m _ => m) (fun p e => p ++ "|" ++ e) "msg" none).result =
      Except.error "Failed after 2 attempts: REASON_TWO" ∧
    occursIn "REASON_TWO".toList "Failed after 2 attempts: REASON_TWO".toList = true ∧
    occursIn "REASON_ONE".toList "Failed after 2 attempts: REASON_TWO".toList = false :=
  ⟨rfl, by decide, by decide⟩

/-- C4 amended: when both attempts fail, the final error of the retry
controller carries the failure reason of attempt 2 (the last error)
appended to the fixed prefix; the reason of attempt 1 reaches only the
augmented prompt of attempt 2, never the final error. -/
theorem generateWithRetry_final_error_carries_last_reason {α : Type}
    (gen : Nat → String → Except String α)
    (pb : String → Option String → String) (brp : String → String → String)
    (msg : String) (ctx : Option String) (e1 e2 : String)
    (h1 : gen 1 (promptFor pb brp msg ctx 1 none) = Except.error e1)
    (h2 : gen 2 (promptFor pb brp msg ctx 2 (some e1)) = Except.error e2) :
    (generateWithRetry gen pb brp msg ctx).result =
      Except.error ("Failed after " ++ toString maxAttempts ++ " attempts: " ++ e2) := by
  rw [generateWithRetry_unroll, h1]
  simp only []
  rw [h2]

/-- Witness for the amended C4 theorem at the counterexample scenario. -/
theorem generateWithRetry_final_error_carries_last_reason_witness :
    (generateWithRetry (α := Nat)
        (fun a _ => Except.error (if a = 1 then "REASON_ONE" else "REASON_TWO"))
        (fun m _ => m) (fun p e => p ++ "|" ++ e) "msg" none).result =
      Except.error ("Failed after " ++ toString maxAttempts ++ " attempts: " ++ "REASON_TWO") :=
  generateWithRetry_final_error_carries_last_reason _ _ _ "msg" none
    "REASON_ONE" "REASON_TWO" rfl rfl

/-- C8: attempt 1 always uses the prompt built by the base prompt
builder from the message and optional context; and when attempt 1 fails
with a non-empty reason, attempt 2 uses the prompt built by the retry
prompt builder from that same base prompt and the failure reason of
attempt 1 (not any generic retry text). -/
theorem generateWithRetry_prompts {α : Type}
    (gen : Nat → String → Except String α)
    (pb : String → Option String → String) (brp : String → String → String)
    (msg : String) (ctx : Option String) :
    (generateWithRetry gen pb brp msg ctx).promptsUsed.head? = some (pb msg ctx) ∧
    (∀ e1, gen 1 (pb msg ctx) = Except.error e1 → e1 ≠ "" →
      (generateWithRetry gen pb brp msg ctx).promptsUsed =
        [pb msg ctx, brp (pb msg ctx) e1]) := by
  constructor
  · rw [generateWithRetry_unroll]
    cases h1 : gen 1 (promptFor pb brp msg ctx 1 none) with
    | ok v => rfl
    | error e1 =>
      simp only []
      cases h2 : gen 2 (promptFor pb brp msg ctx 2 (some e1)) with
      | ok v => rfl
      | error e2 => rfl
  · intro e1 h1 hne
    rw [generateWithRetry_unroll]
    have hp1 : promptFor pb brp msg ctx 1 none = pb msg ctx := rfl
    rw [hp1, h1]
    simp only []
    have hp2 : promptFor pb brp msg ctx 2 (some e1) = brp (pb msg ctx) e1 := by
      unfold promptFor errOrUnknown
      simp [hne]
    rw [hp2]
    cases h2 : gen 2 (brp (pb msg ctx) e1) with
    | ok v => rfl
    | error e2 => rfl

/-- Witness for the C8 theorem: attempt 1 fails with reason E1 and the
two prompts used are the base prompt and the augmented prompt built from
it and E1. -/
theorem generateWithRetry_prompts_witness :
    (generateWithRetry (α := Nat)
        (fun a _ => if a = 1 then Except.error "E1" else Except.ok 7)
        (fun m _ => m) (fun p e => p ++ "|" ++ e) "msg" none).promptsUsed =
      ["msg", "msg|E1"] :=
  (generateWithRetry_prompts (fun a _ => if a = 1 then Except.error "E1" else Except.ok 7)
    (fun m _ => m) (fun p e => p ++ "|" ++ e) "msg" none).2 "E1" rfl (by decide)
